import Mathlib

/-!
Verification of the movie-dashboard filtering and aggregation pipeline
(`src/main.py`).  The Python program is embedded shallowly:

* `PyVal` models the values `ast.literal_eval` can return, and
  `parse_genres` models the genre parser of `load_data` including the
  exception behaviour of the list comprehension
  `[d.get('name') for d in genres if 'name' in d]`
  (a raised exception anywhere yields `[]` for the whole row).
* `MovieRow` models one row of the loaded dataframe after type coercion:
  every numeric column is nullable (`errors='coerce'` turns failures into
  NaN, modelled as `none`).
* `filtered_df`, the metrics, `nlargest`, the groupbys and the Pearson
  correlation matrix are modelled after the pandas calls of the script;
  pandas `nlargest` drops NaN-key rows, sorts the rest descending with
  ties kept in original row order and keeps the first `n`, `groupby`
  drops null keys, and grouped means ignore null values (an all-null
  group keeps the group with a null mean).
-/

namespace MovieDash

/-- Values producible by `ast.literal_eval` on the genres text column
(the constructors needed to settle the parser claims). -/
inductive PyVal where
  | pynone : PyVal
  | pybool : Bool → PyVal
  | pyint : Int → PyVal
  | pystr : String → PyVal
  | pylist : List PyVal → PyVal
  | pydict : List (PyVal × PyVal) → PyVal

/-- Whether a Python value is the string `'name'`. -/
def isNameStr : PyVal → Bool
  | PyVal.pystr s => s == "name"
  | _ => false

/-- Whether the string `'name'` occurs inside `s` (Python `'name' in s`
for a string `s`). -/
def strHasName (s : String) : Bool := 2 ≤ (s.splitOn "name").length

/-- Semantics of the Python test `'name' in d`: key membership for a
dict, substring test for a string, element membership for a list, and a
`TypeError` (modelled as `Except.error`) for numbers, booleans and
`None`. -/
def memName : PyVal → Except Unit Bool
  | PyVal.pydict es => Except.ok (es.any (fun kv => isNameStr kv.1))
  | PyVal.pystr s => Except.ok (strHasName s)
  | PyVal.pylist xs => Except.ok (xs.any isNameStr)
  | _ => Except.error ()

/-- Semantics of `d.get('name')`: the value of the last `'name'` entry
for a dict (Python keeps the last duplicate key), an `AttributeError`
(modelled as `Except.error`) for every non-dict. -/
def getName : PyVal → Except Unit PyVal
  | PyVal.pydict es =>
      Except.ok ((((es.filter (fun kv => isNameStr kv.1)).getLast?).map
        Prod.snd).getD PyVal.pynone)
  | _ => Except.error ()

/-- The list comprehension `[d.get('name') for d in genres if 'name' in d]`,
evaluated left to right; the first raised exception aborts the whole
comprehension. -/
def extractNames : List PyVal → Except Unit (List PyVal)
  | [] => Except.ok []
  | d :: ds =>
      match memName d with
      | Except.error e => Except.error e
      | Except.ok false => extractNames ds
      | Except.ok true =>
          match getName d with
          | Except.error e => Except.error e
          | Except.ok v =>
              match extractNames ds with
              | Except.error e => Except.error e
              | Except.ok vs => Except.ok (v :: vs)

/-- The function `parse_genres` of `src/main.py`.  The input is the result of
`ast.literal_eval` on the genres text: `none` when `literal_eval` itself
raised (syntactically invalid text).  Any exception inside the
comprehension is caught by the bare `except` and yields `[]`; a
non-list top level falls through to the final `return []`. -/
def parse_genres (x : Option PyVal) : List PyVal :=
  match x with
  | none => []
  | some (PyVal.pylist xs) =>
      match extractNames xs with
      | Except.ok vs => vs
      | Except.error _ => []
  | some _ => []

/-- Whether a Python value is a dict. -/
def isDict : PyVal → Bool
  | PyVal.pydict _ => true
  | _ => false

/-- Whether a dict value carries the key `'name'` (false for
non-dicts). -/
def hasNameKey : PyVal → Bool
  | PyVal.pydict es => es.any (fun kv => isNameStr kv.1)
  | _ => false

/-- The `'name'` value of a dict, defaulting to Python `None`. -/
def nameValue : PyVal → PyVal
  | PyVal.pydict es =>
      (((es.filter (fun kv => isNameStr kv.1)).getLast?).map Prod.snd).getD
        PyVal.pynone
  | _ => PyVal.pynone

/-- One row of the loaded dataframe after the coercions of `load_data`:
`to_datetime(...).dt.year` and `to_numeric(..., errors='coerce')` turn
unparseable values into NaN, so every derived numeric column is
nullable; `genres_list` always holds a list (possibly empty). -/
structure MovieRow where
  title : String
  year : Option Int
  budget : Option ℚ
  revenue : Option ℚ
  vote_average : Option ℚ
  vote_count : Option ℚ
  runtime : Option ℚ
  genres_list : List String
deriving DecidableEq

/-- The three sidebar filters. -/
structure FilterCriteria where
  genres : List String
  year_lo : Int
  year_hi : Int
  min_votes : ℚ
deriving DecidableEq

/-- One row's worth of
`df['year'].between(lo, hi) & (df['vote_count'] >= min_votes)` followed
by `genres_list.apply(lambda x: any(g in x for g in genre_filter))`
(the genre test applies only when the genre selection is non-empty):
a NaN year or NaN vote_count compares false in pandas. -/
def rowMatches (c : FilterCriteria) (r : MovieRow) : Bool :=
  (match r.year with
   | some y => decide (c.year_lo ≤ y) && decide (y ≤ c.year_hi)
   | none => false) &&
  (match r.vote_count with
   | some v => decide (c.min_votes ≤ v)
   | none => false) &&
  (c.genres.isEmpty || c.genres.any (fun g => decide (g ∈ r.genres_list)))

/-- The filter `filtered_df` of `src/main.py`. -/
def filtered_df (table : List MovieRow) (c : FilterCriteria) : List MovieRow :=
  table.filter (rowMatches c)

/-- pandas mean of a nullable column: NaN entries are ignored; the mean
of zero non-null values is NaN (`none`). -/
def meanOpt (l : List (Option ℚ)) : Option ℚ :=
  let vs := l.filterMap id
  if vs.isEmpty then none else some (vs.sum / (vs.length : ℚ))

/-- The metric `len(filtered_df)`. -/
def moviesCount (rows : List MovieRow) : Nat := rows.length

/-- The metric `filtered_df['vote_average'].mean()`. -/
def avgRating (rows : List MovieRow) : Option ℚ :=
  meanOpt (rows.map (fun r => r.vote_average))

/-- The metric `filtered_df['revenue'].sum()`: pandas sum skips NaN and returns 0
on an all-NaN or empty column. -/
def totalRevenue (rows : List MovieRow) : ℚ :=
  (rows.map (fun r => (r.revenue).getD 0)).sum

/-- The metric `filtered_df['runtime'].mean()`. -/
def avgRuntime (rows : List MovieRow) : Option ℚ :=
  meanOpt (rows.map (fun r => r.runtime))

/-- Comparison used by descending sorts on a nullable key: NaN sorts
below every number (pandas `na_position='last'` under
`ascending=False`). -/
def optLe : Option ℚ → Option ℚ → Bool
  | none, _ => true
  | some _, none => false
  | some a, some b => decide (a ≤ b)

/-- Stable insertion placing `a` before the first element whose key is
no greater than `a`'s: later elements with an equal key stay behind
`a`. -/
def insertDesc (key : α → Option ℚ) (a : α) : List α → List α
  | [] => [a]
  | b :: bs => if optLe (key b) (key a) then a :: b :: bs else b :: insertDesc key a bs

/-- Stable descending sort by a nullable key, ties kept in original
order and nulls last: the order produced by
`sort_values(by=key, ascending=False)` with stable tie handling. -/
def sortDesc (key : α → Option ℚ) : List α → List α
  | [] => []
  | a :: as' => insertDesc key a (sortDesc key as')

/-- pandas `nlargest(n, col)` with the default `keep='first'`: rows
whose sort key is NaN are dropped first (`dropna` precedes the sort in
both the slow and the fast path), the rest are sorted descending with
ties broken by original row order, and the first `n` are kept. -/
def nlargestBy (n : Nat) (key : α → Option ℚ) (l : List α) : List α :=
  (sortDesc key (l.filter (fun a => (key a).isSome))).take n

/-- The table `filtered_df.nlargest(20, 'revenue')`. -/
def top_revenue (rows : List MovieRow) : List MovieRow :=
  nlargestBy 20 (fun r => r.revenue) rows

/-- The table
`filtered_df[['title','year','vote_average','revenue','genres_list']].nlargest(10, 'vote_average')`
(the projection keeps whole rows here; the selected columns are fields
of `MovieRow`). -/
def top_rated (rows : List MovieRow) : List MovieRow :=
  nlargestBy 10 (fun r => r.vote_average) rows

/-- Insert a key into an ascending duplicate-free list, dropping it if
already present. -/
def insertKey [LinearOrder α] (y : α) : List α → List α
  | [] => [y]
  | x :: xs =>
      if y < x then y :: x :: xs
      else if y = x then x :: xs
      else x :: insertKey y xs

/-- The distinct keys of a column, ascending (pandas `groupby` key
order). -/
def sortedKeys [LinearOrder α] (l : List α) : List α :=
  l.foldr insertKey []

/-- The group keys of `groupby('year')`: null years are dropped
(`dropna=True`), keys ascending. -/
def yearKeys (rows : List MovieRow) : List Int :=
  sortedKeys (rows.filterMap (fun r => r.year))

/-- The series `filtered_df.groupby('year').size()`. -/
def movies_per_year (rows : List MovieRow) : List (Int × Nat) :=
  (yearKeys rows).map
    (fun y => (y, (rows.filter (fun r => r.year = some y)).length))

/-- The series `filtered_df.groupby('year')['vote_average'].mean()`: a year whose
rows all have NaN ratings keeps its group with a NaN mean. -/
def avg_rating_per_year (rows : List MovieRow) : List (Int × Option ℚ) :=
  (yearKeys rows).map
    (fun y => (y, meanOpt ((rows.filter (fun r => r.year = some y)).map
      (fun r => r.vote_average))))

/-- One row's contribution to `explode('genres_list')`, restricted to
the two columns the genre aggregation reads: one entry per element of
`genres_list` (duplicates included), and a single null-key entry for an
empty list. -/
def rowGenreEntries (r : MovieRow) : List (Option String × Option ℚ) :=
  match r.genres_list with
  | [] => [((none : Option String), r.revenue)]
  | gs => gs.map (fun g => (some g, r.revenue))

/-- The frame `filtered_df.explode('genres_list')` on those two columns. -/
def explodeGenres (rows : List MovieRow) : List (Option String × Option ℚ) :=
  rows.flatMap rowGenreEntries

/-- The group keys of `groupby('genres_list')` after the explode: the
null key (exploded empty list) is dropped, keys ascending. -/
def genreKeys (rows : List MovieRow) : List String :=
  sortedKeys ((explodeGenres rows).filterMap (fun p => p.1))

/-- The table `revenue_by_genre` of `src/main.py`:
`explode('genres_list').groupby('genres_list')['revenue'].mean()`
then `sort_values('revenue', ascending=False)`. -/
def revenue_by_genre (rows : List MovieRow) : List (String × Option ℚ) :=
  sortDesc (fun p => p.2)
    ((genreKeys rows).map (fun g =>
      (g, meanOpt (((explodeGenres rows).filter
        (fun p => p.1 = some g)).map (fun p => p.2)))))

/-- The five numeric columns of
`filtered_df[['budget','revenue','vote_average','vote_count','runtime']]`. -/
def numCol : Fin 5 → MovieRow → Option ℚ
  | 0 => fun r => r.budget
  | 1 => fun r => r.revenue
  | 2 => fun r => r.vote_average
  | 3 => fun r => r.vote_count
  | 4 => fun r => r.runtime

/-- The pairwise-complete observations of two nullable columns: the
rows where both entries are non-null, in order. -/
def pairObs (xs ys : List (Option ℚ)) : List (ℚ × ℚ) :=
  (xs.zip ys).filterMap (fun p =>
    match p with
    | (some a, some b) => some (a, b)
    | _ => none)

/-- Mean of a list of rationals (0 on the empty list; only used on
non-empty lists). -/
def listMean (l : List ℚ) : ℚ := l.sum / (l.length : ℚ)

/-- Centered cross-product sum `Σ (aᵢ - mean a)(bᵢ - mean b)` over the
paired observations. -/
def crossSum (obs : List (ℚ × ℚ)) : ℚ :=
  (obs.map (fun p => (p.1 - listMean (obs.map (fun q => q.1))) *
    (p.2 - listMean (obs.map (fun q => q.2))))).sum

/-- The sufficient statistics of one Pearson entry over the
pairwise-complete observations: `(Σ(a-ā)(b-b̄), Σ(a-ā)², Σ(b-b̄)²)`,
or `none` when no complete observation exists (`min_periods=1`
unmet). -/
def corrStats (xs ys : List (Option ℚ)) : Option (ℚ × ℚ × ℚ) :=
  if (pairObs xs ys).isEmpty then none
  else some (crossSum (pairObs xs ys),
    crossSum ((pairObs xs ys).map (fun p => (p.1, p.1))),
    crossSum ((pairObs xs ys).map (fun p => (p.2, p.2))))

/-- One entry of pandas `DataFrame.corr()` (Pearson, pairwise-complete
observations, `min_periods=1`): NaN (`none`) when there is no complete
observation or either column is constant over the complete
observations (zero divisor), else
`Σ(a-ā)(b-b̄) / (√Σ(a-ā)² · √Σ(b-b̄)²)`. -/
noncomputable def corrPair (xs ys : List (Option ℚ)) : Option ℝ :=
  match corrStats xs ys with
  | none => none
  | some (sxy, sxx, syy) =>
      if sxx = 0 ∨ syy = 0 then none
      else some ((sxy : ℝ) / (Real.sqrt (sxx : ℝ) * Real.sqrt (syy : ℝ)))

/-- The matrix `corr` of `src/main.py`:
`filtered_df[['budget','revenue','vote_average','vote_count','runtime']].corr()`. -/
noncomputable def corrMatrix (rows : List MovieRow) (i j : Fin 5) : Option ℝ :=
  corrPair (rows.map (numCol i)) (rows.map (numCol j))

/-- The scatter projection `(vote_count, vote_average, title)` of the
filtered set. -/
def scatterData (rows : List MovieRow) : List (Option ℚ × Option ℚ × String) :=
  rows.map (fun r => (r.vote_count, r.vote_average, r.title))

/-- The bundle of scalars, tables and series the pipeline hands to the
charts (the `FilteredResult` of the specification). -/
structure FilteredResult where
  count : Nat
  avg_rating : Option ℚ
  total_revenue : ℚ
  avg_runtime : Option ℚ
  scatter : List (Option ℚ × Option ℚ × String)
  topRevenue : List MovieRow
  revenueByGenre : List (String × Option ℚ)
  moviesPerYear : List (Int × Nat)
  avgRatingPerYear : List (Int × Option ℚ)
  corr : Fin 5 → Fin 5 → Option ℝ
  topRated : List MovieRow

/-- The whole pipeline `apply(table, criteria)`: filter, then every
aggregate of the dashboard, computed as pure functions of the
arguments. -/
noncomputable def apply (table : List MovieRow) (c : FilterCriteria) : FilteredResult :=
  let f := filtered_df table c
  { count := moviesCount f
    avg_rating := avgRating f
    total_revenue := totalRevenue f
    avg_runtime := avgRuntime f
    scatter := scatterData f
    topRevenue := top_revenue f
    revenueByGenre := revenue_by_genre f
    moviesPerYear := movies_per_year f
    avgRatingPerYear := avg_rating_per_year f
    corr := corrMatrix f
    topRated := top_rated f }

/-- Whether a Python value is a list. -/
def isList : PyVal → Bool
  | PyVal.pylist _ => true
  | _ => false

/-- An element of a parsed genres list on which the comprehension
`[d.get('name') for d in genres if 'name' in d]` raises: either the
membership test `'name' in d` raises (numbers, booleans, `None`), or it
succeeds with `True` on a non-dict so that `.get` raises (a string or
list containing `'name'`). -/
def badElem (d : PyVal) : Prop :=
  memName d = Except.error () ∨
    (memName d = Except.ok true ∧ getName d = Except.error ())

/-- Sum of squared deviations from the mean. -/
def devSq (l : List ℚ) : ℚ :=
  (l.map (fun a => (a - listMean l) * (a - listMean l))).sum

/-- Modelled from the spec: "a row contributes its revenue once to the
group of each genre name it carries" — the mean revenue over the rows
carrying the genre, each row counted once per distinct name, for
comparison with the code's exploded mean. -/
def specGenreMean (g : String) (rows : List MovieRow) : Option ℚ :=
  meanOpt ((rows.filter (fun r => g ∈ r.genres_list)).map (fun r => r.revenue))

/-- A drama movie (spec scenario data). -/
def dramaRow : MovieRow :=
  ⟨"Drama Movie", some 2000, some 5, some 10, some 7, some 50, some 100, ["Drama"]⟩

/-- A comedy movie (spec scenario data). -/
def comedyRow : MovieRow :=
  ⟨"Comedy Movie", some 2005, some 8, some 30, some 8, some 200, some 95, ["Comedy"]⟩

/-- A two-row table used by the concrete witnesses. -/
def demoTable : List MovieRow := [dramaRow, comedyRow]

/-- Criteria matching every row of `demoTable`. -/
def demoCriteria : FilterCriteria := ⟨[], 1990, 2020, 0⟩

/-- Criteria whose genre filter matches no row of `demoTable`. -/
def sciFiCriteria : FilterCriteria := ⟨["SciFi"], 1990, 2020, 0⟩

/-- A row listing the same genre name twice. -/
def dupGenreRowA : MovieRow :=
  ⟨"Double Action", some 2000, none, some 0, some 5, some 10, none, ["Action", "Action"]⟩

/-- A row listing that genre once. -/
def dupGenreRowB : MovieRow :=
  ⟨"Single Action", some 2001, none, some 3, some 6, some 10, none, ["Action"]⟩

/-- A table on which per-occurrence and per-distinct-name genre means
differ. -/
def dupGenreTable : List MovieRow := [dupGenreRowA, dupGenreRowB]

/-- A one-row table: every numeric column has exactly one non-null
value, so every Pearson divisor is zero. -/
def loneRowTable : List MovieRow :=
  [⟨"Lone", some 2000, some 7, some 7, some 7, some 7, some 7, []⟩]

/-- A row passing the demo filter whose revenue and rating are null. -/
def nullRevenueRow : MovieRow :=
  ⟨"No Revenue", some 2000, none, none, none, some 10, none, []⟩

/-- A one-row table whose row has null revenue and rating. -/
def nullRevenueTable : List MovieRow := [nullRevenueRow]

/-- A two-row table whose numeric columns each take two distinct
values. -/
def corrDemoTable : List MovieRow :=
  [⟨"CorrA", some 2000, some 1, some 2, some 3, some 4, some 5, []⟩,
   ⟨"CorrB", some 2001, some 2, some 4, some 6, some 8, some 10, []⟩]

/-! ### The genre parser -/

theorem extractNames_dicts (xs : List PyVal) (h : ∀ d ∈ xs, isDict d = true) :
    extractNames xs = Except.ok ((xs.filter hasNameKey).map nameValue) := by
  induction xs with
  | nil => rfl
  | cons d ds ih =>
      have hd : isDict d = true := h d (List.mem_cons_self d ds)
      have hds : ∀ x ∈ ds, isDict x = true := fun x hx => h x (List.mem_cons_of_mem _ hx)
      cases d with
      | pydict es =>
          by_cases hk : es.any (fun kv => isNameStr kv.1) = true
          · simp [extractNames, memName, hk, getName, ih hds, List.filter_cons,
              hasNameKey, nameValue]
          · simp [extractNames, memName, hk, ih hds, List.filter_cons, hasNameKey]
      | pynone => simp [isDict] at hd
      | pybool b => simp [isDict] at hd
      | pyint n => simp [isDict] at hd
      | pystr s => simp [isDict] at hd
      | pylist l => simp [isDict] at hd

theorem extractNames_error (xs : List PyVal) (h : ∃ d ∈ xs, badElem d) :
    extractNames xs = Except.error () := by
  induction xs with
  | nil => simp at h
  | cons d ds ih =>
      rcases h with ⟨e, he, hbad⟩
      rcases List.mem_cons.1 he with rfl | hin
      · rcases hbad with h1 | ⟨h2, h3⟩
        · simp [extractNames, h1]
        · simp [extractNames, h2, h3]
      · have ih' := ih ⟨e, hin, hbad⟩
        cases hm : memName d with
        | error u => simp [extractNames, hm]
        | ok b =>
            cases b with
            | false => simp [extractNames, hm, ih']
            | true =>
                cases hg : getName d with
                | error u => simp [extractNames, hm, hg]
                | ok v => simp [extractNames, hm, hg, ih']

/-- C5 counterexample: the genres text
`[{'name': 'A'}, {}]` has an object missing the `'name'` key — which the
claim files under malformed input that must yield `[]` — yet the parser
returns `['A']`: keyless objects are skipped, not row-emptying. -/
theorem parse_genres_missing_key_not_empty :
    parse_genres (some (PyVal.pylist
        [PyVal.pydict [(PyVal.pystr "name", PyVal.pystr "A")], PyVal.pydict []]))
      = [PyVal.pystr "A"] ∧
    ([PyVal.pystr "A"] : List PyVal) ≠ [] :=
  ⟨rfl, by simp⟩

/-- C5 (amended): parsing is total; syntactically invalid text
(`literal_eval` raised) and a non-list top-level value yield `[]`; for a
list whose elements are all objects, the result is the ordered list of
`'name'` values of those objects that carry the key — an object missing
`'name'` is skipped, not treated as row-emptying malformed input. -/
theorem parse_genres_spec (x : Option PyVal) :
    (x = none → parse_genres x = []) ∧
    (∀ v, x = some v → isList v = false → parse_genres x = []) ∧
    (∀ xs, x = some (PyVal.pylist xs) → (∀ d ∈ xs, isDict d = true) →
      parse_genres x = (xs.filter hasNameKey).map nameValue) := by
  refine ⟨?_, ?_, ?_⟩
  · rintro rfl; rfl
  · rintro v rfl hv
    cases v with
    | pylist l => simp [isList] at hv
    | pynone => rfl
    | pybool b => rfl
    | pyint n => rfl
    | pystr s => rfl
    | pydict es => rfl
  · rintro xs rfl h
    simp [parse_genres, extractNames_dicts xs h]

/-- Witness for C5 (amended) at the list
`[{'name': 'Action'}, {'id': 1}]`. -/
theorem parse_genres_spec_witness :
    parse_genres (some (PyVal.pylist
        [PyVal.pydict [(PyVal.pystr "name", PyVal.pystr "Action")],
         PyVal.pydict [(PyVal.pystr "id", PyVal.pyint 1)]]))
      = (([PyVal.pydict [(PyVal.pystr "name", PyVal.pystr "Action")],
           PyVal.pydict [(PyVal.pystr "id", PyVal.pyint 1)]] : List PyVal).filter
          hasNameKey).map nameValue :=
  (parse_genres_spec _).2.2 _ rfl (by decide)

/-- C9 counterexample: `[{'name': 'Action'}, []]` contains a non-object
element (an empty list), yet the parser returns `['Action']` — the
membership test `'name' in []` is `False`, so the element is skipped
with no exception and no row-emptying. -/
theorem parse_genres_non_dict_skipped :
    parse_genres (some (PyVal.pylist
        [PyVal.pydict [(PyVal.pystr "name", PyVal.pystr "Action")],
         PyVal.pylist []]))
      = [PyVal.pystr "Action"] ∧
    ([PyVal.pystr "Action"] : List PyVal) ≠ [] :=
  ⟨rfl, by simp⟩

/-- C9 (amended): a list element on which the comprehension raises — the
membership test `'name' in d` raises (a number, boolean or `None`), or
it returns `True` on a non-dict so that `.get` raises (a string or list
containing `'name'`) — discards the whole row's genres; a non-dict
element not containing `'name'` is merely skipped. -/
theorem parse_genres_bad_element (xs : List PyVal) (h : ∃ d ∈ xs, badElem d) :
    parse_genres (some (PyVal.pylist xs)) = [] := by
  simp [parse_genres, extractNames_error xs h]

/-- Witness for C9 (amended) at `[{'name': 'Action'}, 5]`. -/
theorem parse_genres_bad_element_witness :
    parse_genres (some (PyVal.pylist
        [PyVal.pydict [(PyVal.pystr "name", PyVal.pystr "Action")],
         PyVal.pyint 5])) = [] :=
  parse_genres_bad_element _ ⟨PyVal.pyint 5, by simp, Or.inl rfl⟩

/-! ### The descending stable sort -/

theorem optLe_refl (x : Option ℚ) : optLe x x = true := by
  cases x <;> simp [optLe]

theorem optLe_total (x y : Option ℚ) : optLe x y = true ∨ optLe y x = true := by
  cases x <;> cases y <;> simp [optLe] <;> exact le_total _ _

theorem optLe_trans {x y z : Option ℚ} (h₁ : optLe x y = true)
    (h₂ : optLe y z = true) : optLe x z = true := by
  cases x <;> cases y <;> cases z <;> simp [optLe] at h₁ h₂ ⊢ <;>
    exact le_trans h₁ h₂

theorem insertDesc_perm (key : α → Option ℚ) (a : α) (l : List α) :
    List.Perm (insertDesc key a l) (a :: l) := by
  induction l with
  | nil => exact List.Perm.refl _
  | cons b bs ih =>
      by_cases h : optLe (key b) (key a) = true
      · simp [insertDesc, h]
      · simp only [insertDesc, h, if_false, Bool.false_eq_true]
        exact List.Perm.trans (ih.cons b) (List.Perm.swap a b bs)

theorem sortDesc_perm (key : α → Option ℚ) (l : List α) :
    List.Perm (sortDesc key l) l := by
  induction l with
  | nil => exact List.Perm.refl _
  | cons a as ih =>
      exact List.Perm.trans (insertDesc_perm key a (sortDesc key as)) (ih.cons a)

theorem insertDesc_pairwise (key : α → Option ℚ) (a : α) (l : List α)
    (h : List.Pairwise (fun x y => optLe (key y) (key x) = true) l) :
    List.Pairwise (fun x y => optLe (key y) (key x) = true) (insertDesc key a l) := by
  induction l with
  | nil => simp [insertDesc]
  | cons b bs ih =>
      rcases List.pairwise_cons.1 h with ⟨hb, hbs⟩
      by_cases hcmp : optLe (key b) (key a) = true
      · have hins : insertDesc key a (b :: bs) = a :: b :: bs := by
          simp [insertDesc, hcmp]
        rw [hins]
        refine List.pairwise_cons.2 ⟨?_, h⟩
        intro c hc
        rcases List.mem_cons.1 hc with rfl | hc'
        · exact hcmp
        · exact optLe_trans (hb c hc') hcmp
      · have hins : insertDesc key a (b :: bs) = b :: insertDesc key a bs := by
          simp [insertDesc, hcmp]
        rw [hins]
        refine List.pairwise_cons.2 ⟨?_, ih hbs⟩
        intro c hc
        rcases List.mem_cons.1 ((insertDesc_perm key a bs).mem_iff.1 hc) with hca | hc'
        · rw [hca]
          rcases optLe_total (key b) (key a) with h1 | h1
          · exact absurd h1 hcmp
          · exact h1
        · exact hb c hc'

theorem sortDesc_pairwise (key : α → Option ℚ) (l : List α) :
    List.Pairwise (fun x y => optLe (key y) (key x) = true) (sortDesc key l) := by
  induction l with
  | nil => simp [sortDesc]
  | cons a as ih => exact insertDesc_pairwise key a (sortDesc key as) ih

theorem insertDesc_filter_key (key : α → Option ℚ) (v : Option ℚ) (a : α)
    (l : List α) :
    (insertDesc key a l).filter (fun b => key b = v) =
      if key a = v then a :: l.filter (fun b => key b = v)
      else l.filter (fun b => key b = v) := by
  induction l with
  | nil => by_cases hav : key a = v <;> simp [insertDesc, List.filter_cons, hav]
  | cons b bs ih =>
      by_cases hcmp : optLe (key b) (key a) = true
      · have hins : insertDesc key a (b :: bs) = a :: b :: bs := by
          simp [insertDesc, hcmp]
        by_cases hav : key a = v <;> simp [hins, List.filter_cons, hav]
      · have hins : insertDesc key a (b :: bs) = b :: insertDesc key a bs := by
          simp [insertDesc, hcmp]
        rw [hins]
        by_cases hav : key a = v
        · have hbv : ¬ key b = v := by
            intro hb
            apply hcmp
            rw [hb, ← hav]
            exact optLe_refl (key a)
          simp [List.filter_cons, hbv, ih, hav]
        · by_cases hbv : key b = v <;> simp [List.filter_cons, hbv, ih, hav]

theorem sortDesc_filter_key (key : α → Option ℚ) (v : Option ℚ) (l : List α) :
    (sortDesc key l).filter (fun b => key b = v) = l.filter (fun b => key b = v) := by
  induction l with
  | nil => rfl
  | cons a as ih =>
      by_cases hav : key a = v <;>
        simp [sortDesc, insertDesc_filter_key, hav, List.filter_cons, ih]

/-! ### Ascending duplicate-free group keys -/

theorem mem_insertKey [LinearOrder α] (y x : α) (l : List α) :
    x ∈ insertKey y l ↔ x = y ∨ x ∈ l := by
  induction l with
  | nil => simp [insertKey]
  | cons b bs ih =>
      by_cases h1 : y < b
      · simp [insertKey, h1]
      · by_cases h2 : y = b
        · subst h2
          have hins : insertKey y (y :: bs) = y :: bs := by
            simp [insertKey, h1]
          rw [hins]
          simp only [List.mem_cons]
          tauto
        · have hins : insertKey y (b :: bs) = b :: insertKey y bs := by
            simp [insertKey, h1, h2]
          rw [hins]
          simp only [List.mem_cons, ih]
          tauto

theorem sorted_insertKey [LinearOrder α] (y : α) (l : List α)
    (h : List.Pairwise (· < ·) l) :
    List.Pairwise (· < ·) (insertKey y l) := by
  induction l with
  | nil => simp [insertKey]
  | cons b bs ih =>
      rcases List.pairwise_cons.1 h with ⟨hb, hbs⟩
      by_cases h1 : y < b
      · have hins : insertKey y (b :: bs) = y :: b :: bs := by
          simp [insertKey, h1]
        rw [hins]
        refine List.pairwise_cons.2 ⟨?_, h⟩
        intro c hc
        rcases List.mem_cons.1 hc with hcb | hc'
        · rw [hcb]; exact h1
        · exact lt_trans h1 (hb c hc')
      · by_cases h2 : y = b
        · have hins : insertKey y (b :: bs) = b :: bs := by
            simp [insertKey, h1, h2]
          rw [hins]
          exact h
        · have hby : b < y := lt_of_le_of_ne (not_lt.1 h1) (Ne.symm h2)
          have hins : insertKey y (b :: bs) = b :: insertKey y bs := by
            simp [insertKey, h1, h2]
          rw [hins]
          refine List.pairwise_cons.2 ⟨?_, ih hbs⟩
          intro c hc
          rcases (mem_insertKey y c bs).1 hc with hcy | hc'
          · rw [hcy]; exact hby
          · exact hb c hc'

theorem sorted_sortedKeys [LinearOrder α] (l : List α) :
    List.Pairwise (· < ·) (sortedKeys l) := by
  induction l with
  | nil => simp [sortedKeys]
  | cons a as ih => exact sorted_insertKey a _ ih

theorem nodup_sortedKeys [LinearOrder α] (l : List α) : (sortedKeys l).Nodup :=
  List.Sorted.nodup (sorted_sortedKeys l)

theorem mem_sortedKeys [LinearOrder α] (x : α) (l : List α) :
    x ∈ sortedKeys l ↔ x ∈ l := by
  induction l with
  | nil => simp [sortedKeys]
  | cons a as ih =>
      simp only [sortedKeys, List.foldr_cons, List.mem_cons]
      rw [show List.foldr insertKey [] as = sortedKeys as from rfl] at *
      rw [mem_insertKey, ih]

theorem sum_counts_sortedKeys [LinearOrder α] (l : List α) :
    ((sortedKeys l).map (fun y => l.count y)).sum = l.length := by
  have hperm : List.Perm (sortedKeys l) l.dedup :=
    (List.perm_ext_iff_of_nodup (nodup_sortedKeys l) l.nodup_dedup).2
      (fun a => by rw [mem_sortedKeys, List.mem_dedup])
  calc ((sortedKeys l).map (fun y => l.count y)).sum
      = (l.dedup.map (fun y => l.count y)).sum := (hperm.map _).sum_eq
    _ = l.length := List.sum_map_count_dedup_eq_length l

/-! ### The row filter -/

theorem rowMatches_iff (c : FilterCriteria) (r : MovieRow) :
    rowMatches c r = true ↔
      (∃ y, r.year = some y ∧ c.year_lo ≤ y ∧ y ≤ c.year_hi) ∧
      (∃ v, r.vote_count = some v ∧ c.min_votes ≤ v) ∧
      (c.genres ≠ [] → ∃ g, g ∈ r.genres_list ∧ g ∈ c.genres) := by
  unfold rowMatches
  cases hy : r.year with
  | none => simp
  | some y =>
      cases hv : r.vote_count with
      | none => simp
      | some v =>
          cases hg : c.genres with
          | nil => simp [and_assoc]
          | cons g₀ gs =>
              simp only [Bool.and_eq_true, Bool.or_eq_true, decide_eq_true_eq,
                List.any_eq_true, List.isEmpty_cons, Option.some.injEq,
                ne_eq, reduceCtorEq, not_false_iff, true_imp_iff,
                Bool.false_eq_true, false_or]
              constructor
              · rintro ⟨⟨⟨h1, h2⟩, h3⟩, g, hgin, hmem⟩
                exact ⟨⟨y, rfl, h1, h2⟩, ⟨v, rfl, h3⟩, g, hmem, hgin⟩
              · rintro ⟨⟨y', hy', h1, h2⟩, ⟨v', hv', h3⟩, g, hmem, hgin⟩
                cases hy'
                cases hv'
                exact ⟨⟨⟨h1, h2⟩, h3⟩, g, hgin, hmem⟩

/-- C1: a row is in the filtered set iff it is a row of the table whose
year is non-null and within `[year_lo, year_hi]` inclusive, whose
vote_count is non-null and at least `min_votes`, and — when the genre
selection is non-empty — at least one of its genre names is exactly
(case-sensitively) a selected name. -/
theorem filtered_df_mem_iff (table : List MovieRow) (c : FilterCriteria)
    (r : MovieRow) :
    r ∈ filtered_df table c ↔
      r ∈ table ∧
      (∃ y, r.year = some y ∧ c.year_lo ≤ y ∧ y ≤ c.year_hi) ∧
      (∃ v, r.vote_count = some v ∧ c.min_votes ≤ v) ∧
      (c.genres ≠ [] → ∃ g, g ∈ r.genres_list ∧ g ∈ c.genres) := by
  rw [filtered_df, List.mem_filter, rowMatches_iff]

/-! ### Top-n tables -/

theorem nlargestBy_le_length (n : Nat) (key : α → Option ℚ) (l : List α) :
    (nlargestBy n key l).length ≤ l.length := by
  rw [nlargestBy]
  calc (List.take n (sortDesc key (l.filter (fun a => (key a).isSome)))).length
      ≤ (sortDesc key (l.filter (fun a => (key a).isSome))).length :=
        List.length_take_le' n _
    _ = (l.filter (fun a => (key a).isSome)).length :=
        (sortDesc_perm key _).length_eq
    _ ≤ l.length := (List.filter_sublist l).length_le

theorem nlargestBy_of_le (n : Nat) (key : α → Option ℚ) (l : List α)
    (h : l.length ≤ n) :
    nlargestBy n key l = sortDesc key (l.filter (fun a => (key a).isSome)) := by
  rw [nlargestBy, List.take_of_length_le]
  rw [(sortDesc_perm key _).length_eq]
  exact le_trans (List.filter_sublist l).length_le h

/-- C2 counterexample: a one-row filtered set whose revenue and rating
are null. The filtered set has at most 20 (resp. 10) rows, yet
`nlargest` drops the NaN-key row before sorting, so both top tables
are empty instead of being the whole filtered set sorted. -/
theorem top_revenue_drops_null_rows :
    filtered_df nullRevenueTable demoCriteria = [nullRevenueRow] ∧
    (filtered_df nullRevenueTable demoCriteria).length ≤ 20 ∧
    (filtered_df nullRevenueTable demoCriteria).length ≤ 10 ∧
    top_revenue (filtered_df nullRevenueTable demoCriteria) = [] ∧
    top_rated (filtered_df nullRevenueTable demoCriteria) = [] ∧
    ([] : List MovieRow) ≠ [nullRevenueRow] := by
  refine ⟨by decide, by decide, by decide, by decide, by decide, by simp⟩

/-- C2 (amended): both top tables never exceed the filtered set's size;
rows whose sort key (revenue resp. vote_average) is null are dropped,
and when the filtered set has at most 20 (resp. 10) rows the table is
exactly the filtered set's rows with non-null key (a permutation of
them) sorted descending with ties kept in original row order (rows of
any fixed key value appear in their original relative order). -/
theorem top_tables_spec (table : List MovieRow) (c : FilterCriteria) :
    ((top_revenue (filtered_df table c)).length ≤ (filtered_df table c).length ∧
     (top_rated (filtered_df table c)).length ≤ (filtered_df table c).length) ∧
    ((filtered_df table c).length ≤ 20 →
      List.Perm (top_revenue (filtered_df table c))
        ((filtered_df table c).filter (fun r => (r.revenue).isSome)) ∧
      List.Pairwise (fun a b => optLe b.revenue a.revenue = true)
        (top_revenue (filtered_df table c)) ∧
      ∀ v, (top_revenue (filtered_df table c)).filter (fun r => r.revenue = v) =
        ((filtered_df table c).filter (fun r => (r.revenue).isSome)).filter
          (fun r => r.revenue = v)) ∧
    ((filtered_df table c).length ≤ 10 →
      List.Perm (top_rated (filtered_df table c))
        ((filtered_df table c).filter (fun r => (r.vote_average).isSome)) ∧
      List.Pairwise (fun a b => optLe b.vote_average a.vote_average = true)
        (top_rated (filtered_df table c)) ∧
      ∀ v, (top_rated (filtered_df table c)).filter (fun r => r.vote_average = v) =
        ((filtered_df table c).filter (fun r => (r.vote_average).isSome)).filter
          (fun r => r.vote_average = v)) := by
  refine ⟨⟨nlargestBy_le_length _ _ _, nlargestBy_le_length _ _ _⟩, ?_, ?_⟩
  · intro h
    have he : top_revenue (filtered_df table c) =
        sortDesc (fun r => r.revenue)
          ((filtered_df table c).filter (fun r => (r.revenue).isSome)) :=
      nlargestBy_of_le _ _ _ h
    rw [he]
    exact ⟨sortDesc_perm _ _, sortDesc_pairwise _ _,
      fun v => sortDesc_filter_key _ v _⟩
  · intro h
    have he : top_rated (filtered_df table c) =
        sortDesc (fun r => r.vote_average)
          ((filtered_df table c).filter (fun r => (r.vote_average).isSome)) :=
      nlargestBy_of_le _ _ _ h
    rw [he]
    exact ⟨sortDesc_perm _ _, sortDesc_pairwise _ _,
      fun v => sortDesc_filter_key _ v _⟩

/-- Witness for C2 (amended) on a concrete two-row filtered set. -/
theorem top_tables_spec_witness :
    List.Perm (top_revenue (filtered_df demoTable demoCriteria))
      ((filtered_df demoTable demoCriteria).filter (fun r => (r.revenue).isSome)) ∧
    List.Perm (top_rated (filtered_df demoTable demoCriteria))
      ((filtered_df demoTable demoCriteria).filter
        (fun r => (r.vote_average).isSome)) :=
  ⟨((top_tables_spec demoTable demoCriteria).2.1 (by decide)).1,
   ((top_tables_spec demoTable demoCriteria).2.2 (by decide)).1⟩

/-! ### Empty filtered set -/

/-- C4: when the filtered set is empty, every aggregate is still
produced: count 0, null mean rating, zero total revenue, null mean
runtime, and empty top-20/top-10 tables. -/
theorem empty_filtered_aggregates (table : List MovieRow) (c : FilterCriteria)
    (h : filtered_df table c = []) :
    moviesCount (filtered_df table c) = 0 ∧
    avgRating (filtered_df table c) = none ∧
    totalRevenue (filtered_df table c) = 0 ∧
    avgRuntime (filtered_df table c) = none ∧
    top_revenue (filtered_df table c) = [] ∧
    top_rated (filtered_df table c) = [] := by
  rw [h]
  exact ⟨rfl, rfl, rfl, rfl, rfl, rfl⟩

/-- Witness for C4: the spec's SciFi scenario — a genre filter matching
no row of `demoTable`. -/
theorem empty_filtered_aggregates_witness :
    moviesCount (filtered_df demoTable sciFiCriteria) = 0 ∧
    avgRating (filtered_df demoTable sciFiCriteria) = none ∧
    totalRevenue (filtered_df demoTable sciFiCriteria) = 0 ∧
    avgRuntime (filtered_df demoTable sciFiCriteria) = none ∧
    top_revenue (filtered_df demoTable sciFiCriteria) = [] ∧
    top_rated (filtered_df demoTable sciFiCriteria) = [] :=
  empty_filtered_aggregates demoTable sciFiCriteria (by decide)

/-! ### Subset and monotonicity -/

theorem filter_length_mono (l : List MovieRow) (p q : MovieRow → Bool)
    (h : ∀ a ∈ l, p a = true → q a = true) :
    (l.filter p).length ≤ (l.filter q).length := by
  induction l with
  | nil => simp
  | cons a as ih =>
      have ih' := ih (fun b hb => h b (List.mem_cons_of_mem _ hb))
      by_cases hp : p a = true
      · rw [List.filter_cons_of_pos hp,
          List.filter_cons_of_pos (h a (List.mem_cons_self a as) hp)]
        simpa using ih'
      · rw [List.filter_cons_of_neg (by simpa using hp)]
        by_cases hq : q a = true
        · rw [List.filter_cons_of_pos hq]
          exact le_trans ih' (Nat.le_succ _)
        · rw [List.filter_cons_of_neg (by simpa using hq)]
          exact ih'

/-- C6: the filtered set is a sublist of the input table, and weakening
any single filter — widening the year range, lowering the vote
threshold, or emptying the genre selection — never decreases its
size. -/
theorem filter_subset_and_monotone (table : List MovieRow) (c : FilterCriteria)
    (lo hi : Int) (mv : ℚ) (hlo : lo ≤ c.year_lo) (hhi : c.year_hi ≤ hi)
    (hmv : mv ≤ c.min_votes) :
    List.Sublist (filtered_df table c) table ∧
    (filtered_df table c).length ≤
      (filtered_df table (FilterCriteria.mk c.genres lo hi c.min_votes)).length ∧
    (filtered_df table c).length ≤
      (filtered_df table (FilterCriteria.mk c.genres c.year_lo c.year_hi mv)).length ∧
    (filtered_df table c).length ≤
      (filtered_df table (FilterCriteria.mk [] c.year_lo c.year_hi c.min_votes)).length := by
  refine ⟨List.filter_sublist _, ?_, ?_, ?_⟩
  · apply filter_length_mono
    intro r _ hm
    rcases (rowMatches_iff c r).1 hm with ⟨⟨y, hy, h1, h2⟩, hvote, hgen⟩
    exact (rowMatches_iff _ r).2
      ⟨⟨y, hy, le_trans hlo h1, le_trans h2 hhi⟩, hvote, hgen⟩
  · apply filter_length_mono
    intro r _ hm
    rcases (rowMatches_iff c r).1 hm with ⟨hyear, ⟨v, hv, h3⟩, hgen⟩
    exact (rowMatches_iff _ r).2 ⟨hyear, ⟨v, hv, le_trans hmv h3⟩, hgen⟩
  · apply filter_length_mono
    intro r _ hm
    rcases (rowMatches_iff c r).1 hm with ⟨hyear, hvote, _⟩
    exact (rowMatches_iff _ r).2 ⟨hyear, hvote, fun hne => absurd rfl hne⟩

/-- Witness for C6 at a concrete table and weakenings. -/
theorem filter_subset_and_monotone_witness :
    List.Sublist (filtered_df demoTable demoCriteria) demoTable ∧
    (filtered_df demoTable demoCriteria).length ≤
      (filtered_df demoTable (FilterCriteria.mk [] 1980 2021 0)).length ∧
    (filtered_df demoTable demoCriteria).length ≤
      (filtered_df demoTable (FilterCriteria.mk [] 1990 2020 0)).length ∧
    (filtered_df demoTable demoCriteria).length ≤
      (filtered_df demoTable (FilterCriteria.mk [] 1990 2020 0)).length :=
  filter_subset_and_monotone demoTable demoCriteria 1980 2021 0
    (by decide) (by decide) (by decide)

/-! ### Purity and determinism -/

/-- C8: the pipeline is a pure function of `(table, criteria)` — in this
functional model the input table is never modified by construction
(the script builds only derived frames, never writing in place) — and
two runs on identical inputs give identical `FilteredResult`s. -/
theorem apply_deterministic (t₁ t₂ : List MovieRow) (c₁ c₂ : FilterCriteria)
    (ht : t₁ = t₂) (hc : c₁ = c₂) : apply t₁ c₁ = apply t₂ c₂ := by
  rw [ht, hc]

/-- Witness for C8. -/
theorem apply_deterministic_witness :
    apply demoTable demoCriteria = apply demoTable demoCriteria :=
  apply_deterministic demoTable demoTable demoCriteria demoCriteria rfl rfl

/-! ### Year groupings cover the filtered set -/

theorem length_filter_year_count (rows : List MovieRow) (y : Int) :
    (rows.filter (fun r => r.year = some y)).length =
      (rows.filterMap (fun r => r.year)).count y := by
  induction rows with
  | nil => rfl
  | cons r rs ih =>
      cases hr : r.year with
      | none => simp [List.filter_cons, List.filterMap_cons, hr, ih]
      | some z =>
          by_cases hz : z = y
          · subst hz
            simp [List.filter_cons, List.filterMap_cons, hr, ih, List.count_cons]
          · simp [List.filter_cons, List.filterMap_cons, hr, ih, List.count_cons, hz]

theorem filterMap_length_all_isSome {β : Type} (f : MovieRow → Option β)
    (rows : List MovieRow) (h : ∀ r ∈ rows, (f r).isSome = true) :
    (rows.filterMap f).length = rows.length := by
  induction rows with
  | nil => rfl
  | cons r rs ih =>
      rcases Option.isSome_iff_exists.1 (h r (List.mem_cons_self r rs)) with ⟨b, hb⟩
      simp [List.filterMap_cons, hb,
        ih (fun x hx => h x (List.mem_cons_of_mem _ hx))]

/-- C10: every filtered row has a non-null year, the per-year row
counts sum to the filtered row count, and the two per-year groupings
range over the same years. -/
theorem filtered_years_cover (table : List MovieRow) (c : FilterCriteria) :
    (∀ r ∈ filtered_df table c, (r.year).isSome = true) ∧
    ((movies_per_year (filtered_df table c)).map Prod.snd).sum =
      (filtered_df table c).length ∧
    (movies_per_year (filtered_df table c)).map Prod.fst =
      (avg_rating_per_year (filtered_df table c)).map Prod.fst := by
  have hyear : ∀ r ∈ filtered_df table c, (r.year).isSome = true := by
    intro r hr
    rcases (filtered_df_mem_iff table c r).1 hr with ⟨_, ⟨y, hy, _⟩, _⟩
    rw [hy]
    rfl
  refine ⟨hyear, ?_, ?_⟩
  · have h1 : (movies_per_year (filtered_df table c)).map Prod.snd =
        (yearKeys (filtered_df table c)).map
          (fun y => ((filtered_df table c).filterMap (fun r => r.year)).count y) := by
      rw [movies_per_year, List.map_map]
      exact List.map_congr_left (fun y _ => length_filter_year_count _ y)
    rw [h1, yearKeys, sum_counts_sortedKeys]
    exact filterMap_length_all_isSome _ _ hyear
  · rw [movies_per_year, avg_rating_per_year, List.map_map, List.map_map]
    rfl

/-- Witness for C10. -/
theorem filtered_years_cover_witness :
    ((movies_per_year (filtered_df demoTable demoCriteria)).map Prod.snd).sum =
      (filtered_df demoTable demoCriteria).length :=
  (filtered_years_cover demoTable demoCriteria).2.1

/-! ### Mean revenue by genre -/

theorem mem_rowGenreEntries_fst (r : MovieRow) (g : String) :
    (∃ p ∈ rowGenreEntries r, p.1 = some g) ↔ g ∈ r.genres_list := by
  unfold rowGenreEntries
  rcases hgl : r.genres_list with _ | ⟨a, as⟩
  · simp
  · constructor
    · rintro ⟨p, hp, hpg⟩
      rcases List.mem_map.1 hp with ⟨g', hg', hpe⟩
      rw [← hpe] at hpg
      simp only [Option.some.injEq] at hpg
      rw [← hpg]
      exact hg'
    · intro hg
      exact ⟨(some g, r.revenue), List.mem_map.2 ⟨g, hg, rfl⟩, rfl⟩

theorem mem_explode_fst (rows : List MovieRow) (g : String) :
    (∃ p ∈ explodeGenres rows, p.1 = some g) ↔ ∃ r ∈ rows, g ∈ r.genres_list := by
  constructor
  · rintro ⟨p, hp, hpg⟩
    rcases List.mem_flatMap.1 hp with ⟨r, hr, hpr⟩
    exact ⟨r, hr, (mem_rowGenreEntries_fst r g).1 ⟨p, hpr, hpg⟩⟩
  · rintro ⟨r, hr, hg⟩
    rcases (mem_rowGenreEntries_fst r g).2 hg with ⟨p, hp, hpg⟩
    exact ⟨p, List.mem_flatMap.2 ⟨r, hr, hp⟩, hpg⟩

theorem mem_genreKeys (rows : List MovieRow) (g : String) :
    g ∈ genreKeys rows ↔ ∃ r ∈ rows, g ∈ r.genres_list := by
  rw [genreKeys, mem_sortedKeys, ← mem_explode_fst]
  simp [List.mem_filterMap]

theorem revenue_by_genre_pairs (rows : List MovieRow) (g : String) (m : Option ℚ) :
    (g, m) ∈ revenue_by_genre rows ↔
      g ∈ genreKeys rows ∧
      m = meanOpt (((explodeGenres rows).filter (fun p => p.1 = some g)).map
        (fun p => p.2)) := by
  rw [revenue_by_genre, (sortDesc_perm _ _).mem_iff]
  constructor
  · intro hm
    rcases List.mem_map.1 hm with ⟨g', hg', he⟩
    cases he
    exact ⟨hg', rfl⟩
  · rintro ⟨hk, rfl⟩
    exact List.mem_map.2 ⟨g, hk, rfl⟩

/-- C3 (amended): in the mean-revenue-by-genre table of any filtered
set, a row's revenue contributes once per listed occurrence of each
genre name it carries — a multi-genre row appears in every one of its
genre groups, and a name listed twice in one row counts twice — the
groups are sorted descending by mean revenue (null means last), and a
genre appears in the table iff some filtered row carries it; the
per-year mean-rating grouping instead keeps every year group, with a
null mean when all its contributions are null. -/
theorem revenue_by_genre_spec (table : List MovieRow) (c : FilterCriteria) :
    (∀ g m, (g, m) ∈ revenue_by_genre (filtered_df table c) →
      m = meanOpt (((explodeGenres (filtered_df table c)).filter
        (fun p => p.1 = some g)).map (fun p => p.2))) ∧
    List.Pairwise (fun p q => optLe q.2 p.2 = true)
      (revenue_by_genre (filtered_df table c)) ∧
    (∀ g, (∃ m, (g, m) ∈ revenue_by_genre (filtered_df table c)) ↔
      ∃ r ∈ filtered_df table c, g ∈ r.genres_list) ∧
    (∀ y, (∃ r ∈ filtered_df table c, r.year = some y) →
      (y, meanOpt (((filtered_df table c).filter (fun r => r.year = some y)).map
        (fun r => r.vote_average))) ∈ avg_rating_per_year (filtered_df table c)) := by
  refine ⟨?_, ?_, ?_, ?_⟩
  · intro g m hm
    exact ((revenue_by_genre_pairs _ g m).1 hm).2
  · exact sortDesc_pairwise _ _
  · intro g
    constructor
    · rintro ⟨m, hm⟩
      exact (mem_genreKeys _ g).1 ((revenue_by_genre_pairs _ g m).1 hm).1
    · intro h
      exact ⟨_, (revenue_by_genre_pairs _ g _).2
        ⟨(mem_genreKeys _ g).2 h, rfl⟩⟩
  · rintro y ⟨r, hr, hy⟩
    have hk : y ∈ yearKeys (filtered_df table c) := by
      rw [yearKeys, mem_sortedKeys]
      exact List.mem_filterMap.2 ⟨r, hr, hy⟩
    exact List.mem_map.2 ⟨y, hk, rfl⟩

/-- Witness for C3 (amended): on `dupGenreTable` the genre `Action`
appears in the table. -/
theorem revenue_by_genre_spec_witness :
    ∃ m, ("Action", m) ∈ revenue_by_genre (filtered_df dupGenreTable demoCriteria) :=
  ((revenue_by_genre_spec dupGenreTable demoCriteria).2.2.1 "Action").2
    ⟨dupGenreRowA, by decide, by decide⟩

/-- C3 counterexample: on the filtered set {("Double Action",
genres [Action, Action], revenue 0), ("Single Action", [Action],
revenue 3)} the exploded mean for `Action` is `(0+0+3)/3 = 1` — the
duplicated name contributes twice — not the once-per-carried-name mean
`(0+3)/2 = 3/2` described by the claim. -/
theorem revenue_by_genre_not_once_per_name :
    revenue_by_genre (filtered_df dupGenreTable demoCriteria) =
      [("Action", some 1)] ∧
    specGenreMean "Action" (filtered_df dupGenreTable demoCriteria) =
      some (3 / 2) ∧
    (some (1 : ℚ) : Option ℚ) ≠ some ((3 : ℚ) / 2) := by
  have hf : filtered_df dupGenreTable demoCriteria = dupGenreTable := by decide
  have hx : explodeGenres dupGenreTable =
      [(some "Action", some 0), (some "Action", some 0), (some "Action", some 3)] := by
    decide
  have h0 : insertKey "Action" ([] : List String) = ["Action"] := rfl
  have h1 : insertKey "Action" ["Action"] = ["Action"] := by
    unfold insertKey
    rw [if_neg (lt_irrefl _), if_pos rfl]
  have hk : genreKeys dupGenreTable = ["Action"] := by
    unfold genreKeys
    rw [hx]
    show insertKey "Action" (insertKey "Action" (insertKey "Action" [])) = ["Action"]
    rw [h0, h1, h1]
  refine ⟨?_, ?_, ?_⟩
  · rw [revenue_by_genre, hf, hx, hk]
    simp [meanOpt, sortDesc, insertDesc, optLe]
  · rw [specGenreMean, hf]
    simp [meanOpt, dupGenreTable, dupGenreRowA, dupGenreRowB]
  · simp only [ne_eq, Option.some.injEq]
    norm_num

/-! ### Pearson correlation -/

theorem pairObs_cons_ss (a b : ℚ) (xs ys : List (Option ℚ)) :
    pairObs (some a :: xs) (some b :: ys) = (a, b) :: pairObs xs ys := rfl

theorem pairObs_cons_none_left (y : Option ℚ) (xs ys : List (Option ℚ)) :
    pairObs (none :: xs) (y :: ys) = pairObs xs ys := rfl

theorem pairObs_cons_some_none (a : ℚ) (xs ys : List (Option ℚ)) :
    pairObs (some a :: xs) (none :: ys) = pairObs xs ys := rfl

theorem pairObs_swap (xs ys : List (Option ℚ)) :
    pairObs ys xs = (pairObs xs ys).map Prod.swap := by
  induction xs generalizing ys with
  | nil => cases ys <;> rfl
  | cons x xs ih =>
      cases ys with
      | nil => rfl
      | cons y ys =>
          cases x with
          | none =>
              cases y with
              | none =>
                  rw [pairObs_cons_none_left, pairObs_cons_none_left]
                  exact ih ys
              | some b =>
                  rw [pairObs_cons_some_none, pairObs_cons_none_left]
                  exact ih ys
          | some a =>
              cases y with
              | none =>
                  rw [pairObs_cons_none_left, pairObs_cons_some_none]
                  exact ih ys
              | some b =>
                  rw [pairObs_cons_ss, pairObs_cons_ss, List.map_cons, ih ys]
                  rfl

theorem map_fst_swap (l : List (ℚ × ℚ)) :
    (l.map Prod.swap).map (fun q => q.1) = l.map (fun q => q.2) := by
  rw [List.map_map]
  exact List.map_congr_left (fun p _ => rfl)

theorem map_snd_swap (l : List (ℚ × ℚ)) :
    (l.map Prod.swap).map (fun q => q.2) = l.map (fun q => q.1) := by
  rw [List.map_map]
  exact List.map_congr_left (fun p _ => rfl)

theorem sum_map_swap_term (l : List (ℚ × ℚ)) (A B : ℚ) :
    ((l.map Prod.swap).map (fun p => (p.1 - A) * (p.2 - B))).sum =
      (l.map (fun p => (p.1 - B) * (p.2 - A))).sum := by
  rw [List.map_map]
  exact congrArg List.sum (List.map_congr_left (fun p _ => mul_comm _ _))

theorem crossSum_map_swap (l : List (ℚ × ℚ)) :
    crossSum (l.map Prod.swap) = crossSum l := by
  unfold crossSum
  rw [map_fst_swap, map_snd_swap]
  exact sum_map_swap_term l _ _

theorem crossSum_dup_fst (l : List (ℚ × ℚ)) :
    ((l.map Prod.swap).map (fun p => (p.1, p.1))) = l.map (fun p => (p.2, p.2)) := by
  rw [List.map_map]
  exact List.map_congr_left (fun p _ => rfl)

theorem crossSum_dup_snd (l : List (ℚ × ℚ)) :
    ((l.map Prod.swap).map (fun p => (p.2, p.2))) = l.map (fun p => (p.1, p.1)) := by
  rw [List.map_map]
  exact List.map_congr_left (fun p _ => rfl)

theorem isEmpty_map_swap (l : List (ℚ × ℚ)) :
    (l.map Prod.swap).isEmpty = l.isEmpty := by
  cases l <;> rfl

theorem corrPair_symm (xs ys : List (Option ℚ)) :
    corrPair ys xs = corrPair xs ys := by
  unfold corrPair corrStats
  rw [pairObs_swap xs ys, isEmpty_map_swap, crossSum_map_swap,
    crossSum_dup_fst, crossSum_dup_snd]
  by_cases hE : (pairObs xs ys).isEmpty = true
  · simp [hE]
  · simp only [hE, Bool.false_eq_true, if_false]
    exact if_congr or_comm rfl (by rw [mul_comm])

theorem pairObs_self (xs : List (Option ℚ)) :
    pairObs xs xs = (xs.filterMap id).map (fun a => (a, a)) := by
  induction xs with
  | nil => rfl
  | cons x xs ih =>
      cases x with
      | none =>
          rw [pairObs_cons_none_left, List.filterMap_cons]
          simpa using ih
      | some a =>
          rw [pairObs_cons_ss, List.filterMap_cons]
          simp [ih]

theorem map_dup_fst (l : List ℚ) :
    ((l.map (fun a => (a, a))).map (fun p => (p.1, p.1))) = l.map (fun a => (a, a)) := by
  rw [List.map_map]
  exact List.map_congr_left (fun a _ => rfl)

theorem map_dup_snd (l : List ℚ) :
    ((l.map (fun a => (a, a))).map (fun p => (p.2, p.2))) = l.map (fun a => (a, a)) := by
  rw [List.map_map]
  exact List.map_congr_left (fun a _ => rfl)

theorem map_dup_fst_vals (l : List ℚ) :
    (l.map (fun a => (a, a))).map (fun q => q.1) = l := by
  rw [List.map_map]
  exact (List.map_congr_left (fun a _ => rfl)).trans (List.map_id l)

theorem map_dup_snd_vals (l : List ℚ) :
    (l.map (fun a => (a, a))).map (fun q => q.2) = l := by
  rw [List.map_map]
  exact (List.map_congr_left (fun a _ => rfl)).trans (List.map_id l)

theorem crossSum_dup (l : List ℚ) :
    crossSum (l.map (fun a => (a, a))) = devSq l := by
  unfold crossSum devSq
  rw [map_dup_fst_vals, map_dup_snd_vals, List.map_map]
  exact congrArg List.sum (List.map_congr_left (fun a _ => rfl))

theorem devSq_nonneg (l : List ℚ) : 0 ≤ devSq l := by
  apply List.sum_nonneg
  intro x hx
  rcases List.mem_map.1 hx with ⟨c, _, rfl⟩
  exact mul_self_nonneg _

theorem list_sum_nonneg_zero {l : List ℚ} (hpos : ∀ x ∈ l, 0 ≤ x)
    (h : l.sum = 0) : ∀ x ∈ l, x = 0 := by
  induction l with
  | nil => intro x hx; simp at hx
  | cons b bs ih =>
      have hb : 0 ≤ b := hpos b (List.mem_cons_self _ _)
      have hbs : 0 ≤ bs.sum :=
        List.sum_nonneg (fun x hx => hpos x (List.mem_cons_of_mem _ hx))
      rw [List.sum_cons] at h
      have hb0 : b = 0 := le_antisymm (by linarith) hb
      have hs0 : bs.sum = 0 := by linarith
      intro x hx
      rcases List.mem_cons.1 hx with rfl | hx'
      · exact hb0
      · exact ih (fun z hz => hpos z (List.mem_cons_of_mem _ hz)) hs0 x hx'

theorem devSq_eq_zero {l : List ℚ} (h : devSq l = 0) :
    ∀ a ∈ l, a = listMean l := by
  intro a ha
  have hmem : (a - listMean l) * (a - listMean l) ∈
      l.map (fun a => (a - listMean l) * (a - listMean l)) :=
    List.mem_map_of_mem _ ha
  have hz := list_sum_nonneg_zero (fun x hx => by
      rcases List.mem_map.1 hx with ⟨c, _, rfl⟩
      exact mul_self_nonneg _) h _ hmem
  have h0 : a - listMean l = 0 := mul_self_eq_zero.1 hz
  linarith [h0]

theorem corrStats_self_of_ne (xs : List (Option ℚ))
    (hne : (pairObs xs xs).isEmpty = false) :
    corrStats xs xs =
      some (devSq (xs.filterMap id), devSq (xs.filterMap id),
        devSq (xs.filterMap id)) := by
  unfold corrStats
  rw [pairObs_self, map_dup_fst, map_dup_snd, crossSum_dup]
  rw [← pairObs_self, hne]
  simp

theorem corrPair_self (xs : List (Option ℚ)) (a b : ℚ) (hab : a ≠ b)
    (ha : some a ∈ xs) (hb : some b ∈ xs) : corrPair xs xs = some 1 := by
  have hvala : a ∈ xs.filterMap id := List.mem_filterMap.2 ⟨some a, ha, rfl⟩
  have hvalb : b ∈ xs.filterMap id := List.mem_filterMap.2 ⟨some b, hb, rfl⟩
  have hne : (pairObs xs xs).isEmpty = false := by
    rw [pairObs_self]
    cases hvl : xs.filterMap id with
    | nil => rw [hvl] at hvala; simp at hvala
    | cons c cs => rfl
  have hS : devSq (xs.filterMap id) ≠ 0 := by
    intro h0
    exact hab ((devSq_eq_zero h0 a hvala).trans (devSq_eq_zero h0 b hvalb).symm)
  unfold corrPair
  rw [corrStats_self_of_ne xs hne]
  simp only [hS, or_self, if_false]
  have hcast : ((devSq (xs.filterMap id) : ℚ) : ℝ) ≠ 0 := by
    exact_mod_cast hS
  have hnn : (0 : ℝ) ≤ ((devSq (xs.filterMap id) : ℚ) : ℝ) := by
    exact_mod_cast devSq_nonneg _
  rw [Real.mul_self_sqrt hnn, div_self hcast]

theorem list_sum_zero {l : List ℚ} (h : ∀ x ∈ l, x = 0) : l.sum = 0 := by
  induction l with
  | nil => rfl
  | cons b bs ih =>
      rw [List.sum_cons, h b (List.mem_cons_self _ _),
        ih (fun x hx => h x (List.mem_cons_of_mem _ hx)), add_zero]

theorem list_sum_const {l : List ℚ} {c : ℚ} (h : ∀ a ∈ l, a = c) :
    l.sum = c * l.length := by
  induction l with
  | nil => simp
  | cons b bs ih =>
      rw [List.sum_cons, h b (List.mem_cons_self _ _),
        ih (fun x hx => h x (List.mem_cons_of_mem _ hx)), List.length_cons]
      push_cast
      ring

theorem listMean_const {l : List ℚ} {c : ℚ} (hl : l ≠ [])
    (h : ∀ a ∈ l, a = c) : listMean l = c := by
  have hn : (l.length : ℚ) ≠ 0 := by
    have : l.length ≠ 0 := fun h0 => hl (List.length_eq_zero.1 h0)
    exact_mod_cast this
  rw [listMean, list_sum_const h, mul_div_assoc, div_self hn, mul_one]

theorem devSq_const {l : List ℚ} {c : ℚ} (h : ∀ a ∈ l, a = c) :
    devSq l = 0 := by
  unfold devSq
  apply list_sum_zero
  intro x hx
  rcases List.mem_map.1 hx with ⟨a, ha, rfl⟩
  have hlne : l ≠ [] := List.ne_nil_of_mem ha
  rw [h a ha, listMean_const hlne h, sub_self, mul_zero]

theorem corrPair_self_degenerate (xs : List (Option ℚ))
    (h : ∀ a b : ℚ, some a ∈ xs → some b ∈ xs → a = b) :
    corrPair xs xs = none := by
  cases hv : xs.filterMap id with
  | nil =>
      have hobs : (pairObs xs xs).isEmpty = true := by
        rw [pairObs_self, hv]
        rfl
      unfold corrPair corrStats
      simp [hobs]
  | cons c cs =>
      have hcmem : some c ∈ xs := by
        rcases List.mem_filterMap.1 (hv ▸ List.mem_cons_self c cs) with ⟨o, ho, hoc⟩
        cases o with
        | none => simp at hoc
        | some d => simp at hoc; rw [hoc] at ho; exact ho
      have hconst : ∀ a ∈ xs.filterMap id, a = c := by
        intro a ha
        rcases List.mem_filterMap.1 ha with ⟨o, ho, hoa⟩
        cases o with
        | none => simp at hoa
        | some d =>
            simp at hoa
            rw [hoa] at ho
            exact h a c ho hcmem
      have hS : devSq (xs.filterMap id) = 0 := devSq_const hconst
      have hne : (pairObs xs xs).isEmpty = false := by
        rw [pairObs_self, hv]
        rfl
      unfold corrPair
      rw [corrStats_self_of_ne xs hne]
      simp [hS]

/-- C7 counterexample: on a one-row table the budget column has a
non-null value, yet the diagonal correlation entry is NaN (`none`)
rather than 1 — a single observation has zero variance, so the Pearson
divisor is zero. -/
theorem corr_diag_nan_single_obs :
    corrMatrix loneRowTable 0 0 = none ∧
    some (7 : ℚ) ∈ loneRowTable.map (numCol 0) := by
  constructor
  · have hcs : crossSum [((7 : ℚ), (7 : ℚ))] = 0 := by
      norm_num [crossSum, listMean]
    have hobs : pairObs (loneRowTable.map (numCol 0))
        (loneRowTable.map (numCol 0)) = [((7 : ℚ), 7)] := rfl
    have hstats : corrStats (loneRowTable.map (numCol 0))
        (loneRowTable.map (numCol 0)) = some (0, 0, 0) := by
      unfold corrStats
      rw [hobs]
      simp [hcs]
    unfold corrMatrix corrPair
    rw [hstats]
    simp
  · simp [loneRowTable, numCol]

/-- C7 (amended): the correlation matrix is symmetric and each entry is
computed from the pairwise-complete observations of its two columns
only — both unconditionally — and the diagonal entry of a column is 1
whenever the column has at least two distinct non-null values, but NaN
(`none`) whenever its non-null values are all equal (no observation, a
single observation, or a constant column). -/
theorem corr_symm_unit_diag (rows : List MovieRow) (i j : Fin 5) :
    corrMatrix rows i j = corrMatrix rows j i ∧
    (∀ xs ys, pairObs xs ys = pairObs (rows.map (numCol i)) (rows.map (numCol j)) →
      corrPair xs ys = corrMatrix rows i j) ∧
    (∀ a b : ℚ, a ≠ b → some a ∈ rows.map (numCol i) →
      some b ∈ rows.map (numCol i) → corrMatrix rows i i = some 1) ∧
    ((∀ a b : ℚ, some a ∈ rows.map (numCol i) →
      some b ∈ rows.map (numCol i) → a = b) → corrMatrix rows i i = none) := by
  unfold corrMatrix
  refine ⟨(corrPair_symm (rows.map (numCol i)) (rows.map (numCol j))).symm,
    ?_, ?_, ?_⟩
  · intro xs ys h
    unfold corrPair corrStats
    rw [h]
  · intro a b hab ha hb
    exact corrPair_self _ a b hab ha hb
  · intro h
    exact corrPair_self_degenerate _ h

/-- Witness for C7 (amended): symmetry on a concrete two-row table,
unit diagonal for its two-valued budget column, and a null diagonal
for the constant budget column of a one-row table. -/
theorem corr_symm_unit_diag_witness :
    corrMatrix corrDemoTable 0 1 = corrMatrix corrDemoTable 1 0 ∧
    corrMatrix corrDemoTable 0 0 = some 1 ∧
    corrMatrix loneRowTable 0 0 = none :=
  ⟨(corr_symm_unit_diag corrDemoTable 0 1).1,
   (corr_symm_unit_diag corrDemoTable 0 1).2.2.1 1 2 (by norm_num) (by decide)
     (by decide),
   (corr_symm_unit_diag loneRowTable 0 0).2.2.2 (fun a b ha hb => by
     simp [loneRowTable, numCol] at ha hb
     rw [ha, hb])⟩

end MovieDash
